import Mathlib

/-!
Verification development for the kubeseal terraform provider
(`internal/provider/provider.go`, `raw_resource.go`, `raws_resource.go`).

Bytes are modelled as `Nat` values reduced modulo 256 at the points where
the Go code produces them. The cryptographically secure random source
(`crypto/rand.Reader`) is modelled as an explicit infinite byte stream
`Nat → Nat` passed into the sealing functions, so sealing is a pure
function of its inputs plus the stream. Library functions of the
sealed-secrets / kubeseal dependencies are not part of this repository
and are modelled from the spec where so marked.
-/

namespace Kubeseal

/-- A single quote character, used to build Go error messages that quote
the failing item key. -/
def quoteChar : String := String.mk [Char.ofNat 39]

/-- Read `n` bytes from the random stream `s` starting at offset `off`;
each byte is reduced modulo 256. -/
def streamTake (s : Nat → Nat) (off n : Nat) : List Nat :=
  (List.range n).map (fun i => s (off + i) % 256)

/-- Big-endian 2-byte encoding of a length, as Go writes it with
`binary.BigEndian.PutUint16` (the wire format uses a fixed 2-byte width;
the value is truncated to 16 bits as in the Go uint16 conversion). -/
def beBytes2 (n : Nat) : List Nat :=
  [n / 256 % 256, n % 256]

/-- Read a big-endian 2-byte length from the first two bytes of a list. -/
def readBE2 (l : List Nat) : Nat :=
  l.getD 0 0 * 256 + l.getD 1 0

/-- The standard base64 alphabet (RFC 4648), as used by Go
`encoding/base64.StdEncoding`. -/
def b64Chars : List Char :=
  "ABCDEFGHIJKLMNOPQRSTUVWXYZabcdefghijklmnopqrstuvwxyz0123456789+/".toList

/-- The alphabet character at index `n` (out-of-range indices never occur
for in-range bytes; the default is arbitrary). -/
def b64Char (n : Nat) : Char :=
  match b64Chars.get? n with
  | some c => c
  | none => 'A'

/-- Standard padded base64 encoding over a byte list, producing the
character list of the text Go `base64.StdEncoding.EncodeToString`
returns. -/
def base64EncodeL : List Nat → List Char
  | [] => []
  | [a] =>
      let n := a % 256 * 65536
      [b64Char (n / 262144), b64Char (n / 4096 % 64), '=', '=']
  | [a, b] =>
      let n := a % 256 * 65536 + b % 256 * 256
      [b64Char (n / 262144), b64Char (n / 4096 % 64), b64Char (n / 64 % 64), '=']
  | a :: b :: c :: rest =>
      let n := a % 256 * 65536 + b % 256 * 256 + c % 256
      b64Char (n / 262144) :: b64Char (n / 4096 % 64) :: b64Char (n / 64 % 64)
        :: b64Char (n % 64) :: base64EncodeL rest

/-- Go `base64.StdEncoding.EncodeToString` as a `String`. -/
def base64Encode (l : List Nat) : String :=
  String.mk (base64EncodeL l)

/-- An RSA public key, abstracted to its modulus length in bytes; only
the size matters for the OAEP wrap-length constraint and the framing. -/
structure RSAPub where
  size : Nat
  deriving DecidableEq, Repr

/-- Session key length in bytes: 256-bit AES key (sealed-secrets
`sessionKeyBytes`). -/
def sessionKeyBytes : Nat := 32

/-- AES-GCM nonce length in bytes. -/
def gcmNonceBytes : Nat := 12

/-- AES-GCM authentication tag length in bytes. -/
def gcmTagBytes : Nat := 16

/-- SHA-256 digest length in bytes (the OAEP hash). -/
def sha256Bytes : Nat := 32

/-- Modelled from the spec: RSA-OAEP(SHA-256) wrap of the session key
under the public key, with the label as the OAEP label parameter
(crypto library code, not under src/). The wrap fails when the key is
too small relative to the session-key length (the OAEP bound
`size ≥ msgLen + 2*hashLen + 2`); on success it yields a ciphertext of
exactly the modulus length. The byte contents are abstracted as a mix of
the OAEP randomness (drawn from the stream at `off`), the session key
and the label; only the length, fallibility and framing position are
load-bearing. -/
def oaepWrap (stream : Nat → Nat) (off : Nat) (k : RSAPub)
    (sessionKey lbl : List Nat) : Except String (List Nat) :=
  if k.size < sessionKey.length + 2 * sha256Bytes + 2 then
    .error "wrap-failed"
  else
    .ok ((List.range k.size).map
      (fun i => (stream (off + i) + sessionKey.getD (i % 32) 0 + lbl.length) % 256))

/-- Modelled from the spec: AES-GCM authenticated encryption of the
plaintext under the session key and nonce with the label as associated
data, returning ciphertext followed by the 16-byte tag (crypto library
code, not under src/). Byte contents are abstracted; the output length
is `plaintext length + 16` and the function is total and deterministic
in its inputs. -/
def aeadSeal (key nonce pt aad : List Nat) : List Nat :=
  pt.mapIdx (fun i b => (b + key.getD (i % 32) 0 + nonce.getD (i % 12) 0) % 256)
    ++ (List.range gcmTagBytes).map (fun i => (i + pt.length + aad.length) % 256)

/-- Modelled from the spec: sealed-secrets `crypto.HybridEncrypt`
(not under src/), following spec section 4.3: draw a fresh 256-bit
session key from the stream, draw a fresh nonce, AEAD-encrypt the
plaintext with the label as associated data, wrap the session key under
the RSA key with OAEP, and frame the output as a fixed-width big-endian
length prefixed wrapped key, then the nonce, then ciphertext-plus-tag.
The stream is consumed at fixed offsets: session key at 0, nonce at 32,
OAEP randomness from 44. -/
def HybridEncrypt (stream : Nat → Nat) (k : RSAPub) (pt lbl : List Nat) :
    Except String (List Nat) :=
  let sessionKey := streamTake stream 0 sessionKeyBytes
  let nonce := streamTake stream sessionKeyBytes gcmNonceBytes
  match oaepWrap stream (sessionKeyBytes + gcmNonceBytes) k sessionKey lbl with
  | .error e => .error e
  | .ok wrapped =>
      .ok (beBytes2 wrapped.length ++ wrapped ++ nonce ++ aeadSeal sessionKey nonce pt lbl)

/-- The bytes of a string (Unicode code points reduced mod 256; the
repository only ever labels with ASCII names/namespaces, for which this
is exactly the UTF-8 byte sequence Go produces). -/
def strBytes (s : String) : List Nat :=
  s.toList.map (fun c => c.toNat % 256)

/-- Modelled from the spec: sealed-secrets `ssv1alpha1.EncryptionLabel`
(not under src/), the LabelBuilder of spec section 4.2. Scope 0 (strict)
yields `namespace ++ "/" ++ name`, scope 1 (namespace-wide) yields the
namespace, scope 2 (cluster-wide) yields the empty label. The Go
function returns a byte slice and cannot fail, so it is total; scopes
outside the three variants fall through to the default (strict-shaped)
case. -/
def EncryptionLabel (nspace name : String) (scope : Int) : List Nat :=
  if scope = 1 then strBytes nspace
  else if scope = 2 then [] else strBytes (nspace ++ "/" ++ name)

/-- A Go public key as found inside a parsed certificate: either an RSA
key, or a key of some other type carrying its Go type name and the
string that Go `%v` value-formatting renders it to (the `%v` rendering
of, e.g., an ed25519 key is its byte slice, which does not contain the
type name). -/
inductive GoPublicKey
  | rsa (k : RSAPub)
  | nonRSA (typeName : String) (formatted : String)
  deriving DecidableEq, Repr

/-- A parsed certificate: its embedded public key and its `NotAfter`
expiry instant (modelled as an integer timestamp). -/
structure GoCert where
  publicKey : GoPublicKey
  notAfter : Int
  deriving DecidableEq, Repr

/-- The result of running the library PEM certificate parser
(`k8s.io/client-go/util/cert.ParseCertsPEM`, not under src/) on the
pubkey attribute text: either a parse failure with its message, or the
list of parsed certificates. The plan carries this parse outcome
directly, since the byte-level PEM grammar is library code. -/
inductive PemData
  | malformed (msg : String)
  | certs (cs : List GoCert)
  deriving DecidableEq, Repr

/-- Abstraction of Go `t.Format("January 2, 2006")` on the expiry
instant; the concrete rendering is not load-bearing. -/
def formatCertDate (t : Int) : String := toString t

/-- `ParseKey` from `raw_resource.go` lines 88-114: propagate a parse
failure, reject an empty certificate list, reject a first certificate
whose key is not RSA (reporting the `%v` rendering of the found key),
reject an expired first certificate (`time.Now().After(NotAfter)`), and
otherwise return the RSA key. `io.ReadAll` on a `strings.Reader` cannot
fail and is dropped. -/
def ParseKey (d : PemData) (now : Int) : Except String RSAPub :=
  match d with
  | .malformed msg => .error msg
  | .certs cs =>
    match cs with
    | [] => .error "failed to read any certificates"
    | c :: _ =>
      match c.publicKey with
      | .nonRSA _ v => .error ("expected RSA public key but found " ++ v)
      | .rsa k =>
        if c.notAfter < now then
          .error ("failed to encrypt using an expired certificate on "
            ++ formatCertDate c.notAfter)
        else .ok k

/-- One diagnostic of a terraform response: summary and detail, as
produced by `Diagnostics.AddError`. -/
structure Diag where
  summary : String
  detail : String
  deriving DecidableEq, Repr

/-- The plan of the `kubeseal_raw` resource (`rawSealModel`,
`raw_resource.go` lines 37-45). The pubkey attribute is carried as its
PEM parse outcome; the computed attributes are `Option`s. -/
structure RawPlan where
  name : String
  nspace : String
  secret : String
  scope : Int
  pubkey : PemData
  sealedText : Option String
  lastUpdated : Option String
  deriving DecidableEq, Repr

/-- A Create/Update response of the raw resource: the diagnostics the
caller sees, and the state if `State.Set` was reached. -/
structure RawResponse where
  diagnostics : List Diag
  state : Option RawPlan
  deriving DecidableEq, Repr

/-- The scope attribute of the `kubeseal_raw` schema declares no
validators (`raw_resource.go` lines 68-70), so every integer passes
schema validation. -/
def rawSchemaScopeValid (_s : Int) : Bool := true

/-- The scope attribute of the `kubeseal_raws` schema declares
`int32validator.Between(0, 2)` (`raws_resource.go` lines 68-70).
Modelled from the spec: the validator library is not under src/;
`Between(0,2)` accepts exactly the values from 0 to 2 inclusive. -/
def rawsSchemaScopeValid (s : Int) : Bool := 0 ≤ s && s ≤ 2

/-- `Create` of the raw resource (`raw_resource.go` lines 117-160),
after a successful `req.Plan.Get`. `now` is the instant used by the
expiry check in `ParseKey`; `nowStr` the RFC850 rendering written to
`last_updated`; `stream` the `crypto/rand.Reader` bytes. -/
def rawCreate (plan : RawPlan) (now : Int) (nowStr : String)
    (stream : Nat → Nat) : RawResponse :=
  match ParseKey plan.pubkey now with
  | .error e =>
      { diagnostics := [⟨"Error parsing pubkey", "Unexpected error: " ++ e⟩],
        state := none }
  | .ok spkiKey =>
    let lbl := EncryptionLabel plan.nspace plan.name plan.scope
    match HybridEncrypt stream spkiKey (strBytes plan.secret) lbl with
    | .error e =>
        { diagnostics := [⟨"Error encrypting value", "Unexpected error: " ++ e⟩],
          state := none }
    | .ok out =>
      let sealedB64 := base64Encode out
      if sealedB64.length = 0 then
        { diagnostics := [⟨"Error Sealing not successful", ""⟩], state := none }
      else
        { diagnostics := [],
          state := some { plan with
            sealedText := some (base64Encode out),
            lastUpdated := some nowStr } }

/-- `Update` of the raw resource (`raw_resource.go` lines 165-208),
after a successful `req.Plan.Get`; transcribed separately from `Create`
(the only textual difference in the Go is that `Update` assigns the
already computed `sealed` string instead of re-encoding). -/
def rawUpdate (plan : RawPlan) (now : Int) (nowStr : String)
    (stream : Nat → Nat) : RawResponse :=
  match ParseKey plan.pubkey now with
  | .error e =>
      { diagnostics := [⟨"Error parsing pubkey", "Unexpected error: " ++ e⟩],
        state := none }
  | .ok spkiKey =>
    let lbl := EncryptionLabel plan.nspace plan.name plan.scope
    match HybridEncrypt stream spkiKey (strBytes plan.secret) lbl with
    | .error e =>
        { diagnostics := [⟨"Error encrypting value", "Unexpected error: " ++ e⟩],
          state := none }
    | .ok out =>
      let sealedB64 := base64Encode out
      if sealedB64.length = 0 then
        { diagnostics := [⟨"Error Sealing not successful", ""⟩], state := none }
      else
        { diagnostics := [],
          state := some { plan with
            sealedText := some sealedB64,
            lastUpdated := some nowStr } }

/-- `Read` of the raw resource (`raw_resource.go` lines 162-163): the
body is empty, so the response passes through unchanged. -/
def rawRead (resp : RawResponse) : RawResponse := resp

/-- `Delete` of the raw resource (`raw_resource.go` lines 210-211): the
body is empty, so the response passes through unchanged. -/
def rawDelete (resp : RawResponse) : RawResponse := resp

/-- The apply pipeline of the raw resource. Modelled from the spec: the
terraform framework runs the schema validators before `Create`; the raw
schema declares none, so `Create` always runs. -/
def rawApplyCreate (plan : RawPlan) (now : Int) (nowStr : String)
    (stream : Nat → Nat) : RawResponse :=
  if rawSchemaScopeValid plan.scope then rawCreate plan now nowStr stream
  else { diagnostics := [⟨"Invalid Attribute Value", "scope must be between 0 and 2"⟩],
         state := none }

/-- The `values` map attribute of the raws plan, carried as the outcome
of `plan.Values.ElementsAs`: either the extracted key/value pairs in Go
map iteration order, or a conversion failure with the message of the
diagnostic `ElementsAs` produces. -/
inductive ValuesAttr
  | ok (pairs : List (String × String))
  | bad (msg : String)
  deriving DecidableEq, Repr

/-- The plan of the `kubeseal_raws` resource (`rawsSealModel`,
`raws_resource.go` lines 31-39). -/
structure RawsPlan where
  name : String
  nspace : String
  values : ValuesAttr
  scope : Int
  pubkey : PemData
  sealedMap : Option (List (String × String))
  lastUpdated : Option String
  deriving DecidableEq, Repr

/-- A Create/Update response of the raws resource. -/
structure RawsResponse where
  diagnostics : List Diag
  state : Option RawsPlan
  deriving DecidableEq, Repr

/-- The per-item encryption loop of `encryptMapWrapper`
(`raws_resource.go` lines 114-123), over the items in iteration order.
`seal` stands for the call `kubeseal.EncryptSecretItem(w, name,
namespace, value, scope, pubKey)` (library code, not under src/),
already closed over everything but the item; on the first item whose
sealing fails the loop stops and reports that item key with the
underlying error, otherwise it returns every sealed item under its input
key. -/
def sealLoop (sealFn : String → String → Except String String) :
    List (String × String) → Except (String × String) (List (String × String))
  | [] => .ok []
  | (k, v) :: rest =>
    match sealFn k v with
    | .error e => .error (k, e)
    | .ok ct =>
      match sealLoop sealFn rest with
      | .error p => .error p
      | .ok tail => .ok ((k, ct) :: tail)

/-- `encryptMapWrapper` (`raws_resource.go` lines 95-135). In Go the
`diagnostics diag.Diagnostics` parameter is a slice passed by value, so
the appends performed by `AddError` inside the function are visible only
to the local copy; the model therefore returns the local diagnostics as
a third component, which the transcribed callers discard exactly as the
Go callers cannot observe it. Note the Go `err` variable: on an
`ElementsAs` failure the function returns the then-current `err`, which
is nil because `ParseKey` has already succeeded. The final
`types.MapValueFrom` of a string-to-string map cannot fail and is
modelled as total. -/
def encryptMapWrapper (sealFn : String → String → Except String String)
    (plan : RawsPlan) (now : Int) (nowStr : String)
    (diagnostics : List Diag) :
    RawsPlan × Option String × List Diag :=
  match ParseKey plan.pubkey now with
  | .error e =>
      (plan, some e,
        diagnostics ++ [⟨"Error parsing pubkey", "Unexpected error: " ++ e⟩])
  | .ok _pubKey =>
    match plan.values with
    | .bad m => (plan, none, diagnostics ++ [⟨"Values Conversion Error", m⟩])
    | .ok pairs =>
      match sealLoop sealFn pairs with
      | .error (k, e) =>
          (plan, some e,
            diagnostics ++ [⟨"Error encrypting secret item",
              "Unexpected error for key " ++ quoteChar ++ k ++ quoteChar
                ++ ": " ++ e⟩])
      | .ok sealedValues =>
          ({ plan with
              sealedMap := some sealedValues,
              lastUpdated := some nowStr }, none, diagnostics)

/-- `Create` of the raws resource (`raws_resource.go` lines 138-159),
after a successful `req.Plan.Get`. `resp.Diagnostics` is passed to
`encryptMapWrapper` by value, so the local diagnostics the wrapper
builds never reach the response; on a non-nil error the function returns
early, otherwise it reaches `resp.State.Set`. -/
def rawsCreate (sealFn : String → String → Except String String)
    (plan : RawsPlan) (now : Int) (nowStr : String) : RawsResponse :=
  let respDiags : List Diag := []
  let r := encryptMapWrapper sealFn plan now nowStr respDiags
  match r.2.1 with
  | some _ => { diagnostics := respDiags, state := none }
  | none => { diagnostics := respDiags, state := some r.1 }

/-- `Update` of the raws resource (`raws_resource.go` lines 161-182),
transcribed separately; its body is the same as `Create`. -/
def rawsUpdate (sealFn : String → String → Except String String)
    (plan : RawsPlan) (now : Int) (nowStr : String) : RawsResponse :=
  let respDiags : List Diag := []
  let r := encryptMapWrapper sealFn plan now nowStr respDiags
  match r.2.1 with
  | some _ => { diagnostics := respDiags, state := none }
  | none => { diagnostics := respDiags, state := some r.1 }

/-- The apply pipeline of the raws resource. Modelled from the spec: the
terraform framework runs the schema validators before `Create`, so a
scope outside `Between(0, 2)` is rejected before any sealing code runs
(the rejection diagnostic text is the framework's, abstracted here). -/
def rawsApplyCreate (sealFn : String → String → Except String String)
    (plan : RawsPlan) (now : Int) (nowStr : String) : RawsResponse :=
  if rawsSchemaScopeValid plan.scope then rawsCreate sealFn plan now nowStr
  else { diagnostics := [⟨"Invalid Attribute Value", "scope must be between 0 and 2"⟩],
         state := none }

/-- The resource constructors defined in the provider package:
`NewRawResource` (`raw_resource.go` lines 29-31) and `NewRawsResource`
(`raws_resource.go` lines 23-25). -/
inductive ResourceKind
  | raw
  | raws
  deriving DecidableEq, Repr

/-- `Resources` of the provider (`provider.go` lines 47-51): the list of
resource constructors registered with the framework. The Go function
returns only `NewRawResource`. -/
def providerResources : List ResourceKind := [ResourceKind.raw]

/-- The provider type name (`provider.go` line 30). -/
def providerTypeName : String := "kubeseal"

/-- The type name the raw resource registers (`raw_resource.go`
line 49). -/
def rawTypeName : String := providerTypeName ++ "_raw"

/-- The type name the raws resource would register (`raws_resource.go`
line 43). -/
def rawsTypeName : String := providerTypeName ++ "_raws"

/-- Concrete random stream used to evaluate the model on closed inputs. -/
def demoStream : Nat → Nat := fun i => (i * 7 + 3) % 256

/-- A valid RSA-2048-shaped certificate for concrete runs (98 bytes is
the smallest modulus the OAEP bound admits for a 32-byte session key;
the size only has to clear the bound). -/
def demoCert : GoCert := { publicKey := .rsa ⟨98⟩, notAfter := 100 }

/-- A `kubeseal_raw` plan whose scope is 3, outside the three variants. -/
def demoScope3RawPlan : RawPlan :=
  { name := "example", nspace := "default", secret := "very_secret_secret",
    scope := 3, pubkey := .certs [demoCert],
    sealedText := none, lastUpdated := none }

/-- A `kubeseal_raws` plan whose scope is 3, outside the three variants. -/
def demoScope3RawsPlan : RawsPlan :=
  { name := "example", nspace := "default", values := .ok [("a", "s1")],
    scope := 3, pubkey := .certs [demoCert],
    sealedMap := none, lastUpdated := none }

/-- A well-formed `kubeseal_raws` plan with three items. -/
def okRawsPlan : RawsPlan :=
  { name := "example", nspace := "default",
    values := .ok [("a", "s1"), ("b", "s2"), ("c", "s3")],
    scope := 0, pubkey := .certs [demoCert],
    sealedMap := none, lastUpdated := none }

/-- A `kubeseal_raws` plan whose pubkey text fails the PEM parse. -/
def badPemRawsPlan : RawsPlan :=
  { name := "example", nspace := "default", values := .ok [("a", "s1")],
    scope := 0, pubkey := .malformed "no certificate block",
    sealedMap := none, lastUpdated := none }

/-- A `kubeseal_raws` plan whose values attribute fails `ElementsAs`. -/
def badValuesRawsPlan : RawsPlan :=
  { name := "example", nspace := "default",
    values := .bad "element conversion failed",
    scope := 0, pubkey := .certs [demoCert],
    sealedMap := none, lastUpdated := none }

/-- An item sealer that always succeeds. -/
def anySealFn : String → String → Except String String := fun _ _ => .ok "ct"

/-- An item sealer that fails exactly on item key `b` (the simulated
per-item failure of spec section 8). -/
def failBSealFn : String → String → Except String String :=
  fun k _ => if k = "b" then .error "simulated-encrypt-failure" else .ok "ct"

/-- The sealed blob produced on the spec section 8 scenario inputs. -/
def demoSealedOut : List Nat :=
  match HybridEncrypt demoStream ⟨98⟩ (strBytes "very_secret_secret")
      (EncryptionLabel "default" "example" 0) with
  | .ok o => o
  | .error _ => []

/-- Go type name of an ed25519 public key, for the key-type claim. -/
def ed25519TypeName : String := "ed25519.PublicKey"

/-- The Go percent-v rendering of an ed25519 public key: its byte slice. -/
def ed25519Formatted : String := "[81 205 23]"

/-- A certificate embedding an ed25519 (non-RSA) public key. -/
def nonRSACert : GoCert :=
  { publicKey := .nonRSA ed25519TypeName ed25519Formatted, notAfter := 100 }

/-- The message `ParseKey` produces on `nonRSACert`. -/
def c9msg : String := "expected RSA public key but found " ++ ed25519Formatted

/-- Whether `hay` starts with `needle`. -/
def startsWithSeq : List Char → List Char → Bool
  | [], _ => true
  | _ :: _, [] => false
  | a :: as, b :: bs => a == b && startsWithSeq as bs

/-- Whether `hay` contains `needle` as a contiguous run (used to state
that a message does or does not mention a given word). -/
def containsSeq (needle : List Char) : List Char → Bool
  | [] => startsWithSeq needle []
  | b :: bs => startsWithSeq needle (b :: bs) || containsSeq needle bs

theorem b64Char_mem (n : Nat) : b64Char n ∈ b64Chars := by
  unfold b64Char
  cases h : b64Chars.get? n with
  | none => decide
  | some c => exact List.get?_mem h

theorem base64EncodeL_length_mod4 (l : List Nat) :
    (base64EncodeL l).length % 4 = 0 := by
  induction l using base64EncodeL.induct <;> simp_all [base64EncodeL]
  all_goals omega

theorem base64EncodeL_mem (l : List Nat) :
    ∀ c ∈ base64EncodeL l, c ∈ b64Chars ∨ c = '=' := by
  induction l using base64EncodeL.induct with
  | case1 => intro c hc; simp [base64EncodeL] at hc
  | case2 a =>
      intro c hc
      simp [base64EncodeL] at hc
      rcases hc with h | h | h
      · exact .inl (h ▸ b64Char_mem _)
      · exact .inl (h ▸ b64Char_mem _)
      · exact .inr h
  | case3 a b =>
      intro c hc
      simp [base64EncodeL] at hc
      rcases hc with h | h | h | h
      · exact .inl (h ▸ b64Char_mem _)
      · exact .inl (h ▸ b64Char_mem _)
      · exact .inl (h ▸ b64Char_mem _)
      · exact .inr h
  | case4 a b d rest ih =>
      intro c hc
      simp only [base64EncodeL, List.mem_cons] at hc
      rcases hc with h | h | h | h | h
      · exact .inl (h ▸ b64Char_mem _)
      · exact .inl (h ▸ b64Char_mem _)
      · exact .inl (h ▸ b64Char_mem _)
      · exact .inl (h ▸ b64Char_mem _)
      · exact ih c h

theorem base64EncodeL_ne_nil {l : List Nat} (h : l ≠ []) :
    base64EncodeL l ≠ [] := by
  match l with
  | [] => exact absurd rfl h
  | [a] => simp [base64EncodeL]
  | [a, b] => simp [base64EncodeL]
  | a :: b :: c :: rest => simp [base64EncodeL]

theorem readBE2_beBytes2 (n : Nat) (rest : List Nat) (h : n < 65536) :
    readBE2 (beBytes2 n ++ rest) = n := by
  simp [readBE2, beBytes2]
  omega

theorem oaepWrap_ok_length {stream : Nat → Nat} {off : Nat} {k : RSAPub}
    {sk lbl w : List Nat} (h : oaepWrap stream off k sk lbl = .ok w) :
    w.length = k.size := by
  unfold oaepWrap at h
  split at h
  · exact absurd h (by simp)
  · simp only [Except.ok.injEq] at h
    subst h
    simp

theorem hybridEncrypt_ok {stream : Nat → Nat} {k : RSAPub} {pt lbl out : List Nat}
    (h : HybridEncrypt stream k pt lbl = .ok out) :
    ∃ w, oaepWrap stream (sessionKeyBytes + gcmNonceBytes) k
        (streamTake stream 0 sessionKeyBytes) lbl = .ok w
      ∧ out = beBytes2 w.length ++ w
          ++ streamTake stream sessionKeyBytes gcmNonceBytes
          ++ aeadSeal (streamTake stream 0 sessionKeyBytes)
              (streamTake stream sessionKeyBytes gcmNonceBytes) pt lbl := by
  unfold HybridEncrypt at h
  dsimp only at h
  split at h
  · exact absurd h (by simp)
  next w heq =>
    simp only [Except.ok.injEq] at h
    exact ⟨w, heq, h.symm⟩

theorem sealLoop_first_failure
    (sealFn : String → String → Except String String)
    (pre post : List (String × String)) (k v cause : String)
    (hpre : ∀ p ∈ pre, ∃ ct, sealFn p.1 p.2 = .ok ct)
    (hfail : sealFn k v = .error cause) :
    sealLoop sealFn (pre ++ (k, v) :: post) = .error (k, cause) := by
  induction pre with
  | nil => simp [sealLoop, hfail]
  | cons p rest ih =>
    obtain ⟨ct, hct⟩ := hpre p (by simp)
    have ih' := ih (fun q hq => hpre q (by simp [hq]))
    cases p with
    | mk pk pv =>
      simp only at hct
      simp [sealLoop, hct, ih']

/-- C2: for every name and namespace, the authentication label is
`namespace ++ "/" ++ name` at scope 0 (strict), exactly the namespace at
scope 1 (namespace-wide), and empty at scope 2 (cluster-wide); labels at
scope 1 are invariant under name changes and labels at scope 2 are empty
for all inputs. The label is a Lean function of (name, namespace,
scope), so it is a pure function of that triple by construction. -/
theorem c2_encryption_label (name nspace other : String) :
    EncryptionLabel nspace name 0 = strBytes (nspace ++ "/" ++ name)
    ∧ EncryptionLabel nspace name 1 = strBytes nspace
    ∧ EncryptionLabel nspace name 2 = []
    ∧ EncryptionLabel nspace other 1 = EncryptionLabel nspace name 1
    ∧ EncryptionLabel nspace other 2 = EncryptionLabel nspace name 2 := by
  refine ⟨?_, rfl, rfl, rfl, rfl⟩
  simp [EncryptionLabel]

/-- C6 (code bug): the provider registers only the single-value raw
resource; `NewRawsResource` exists, with the type name `kubeseal_raws`,
but `Resources` never returns it, so the multi-value entry point is not
reachable through the provider. -/
theorem c6_raws_not_registered :
    providerResources = [ResourceKind.raw]
    ∧ ResourceKind.raw ∈ providerResources
    ∧ ResourceKind.raws ∉ providerResources
    ∧ rawsTypeName = "kubeseal_raws" := by
  refine ⟨rfl, by decide, by decide, rfl⟩

/-- C7: for every plan, timestamp and random stream, `Create` and
`Update` of the raw resource produce the identical response (same key
parsing, same label, same encryption, same state fields), and `Read` and
`Delete` are no-ops that leave the response unchanged. -/
theorem c7_create_update_same_read_delete_noop :
    (∀ (plan : RawPlan) (now : Int) (nowStr : String) (stream : Nat → Nat),
        rawCreate plan now nowStr stream = rawUpdate plan now nowStr stream)
    ∧ (∀ resp : RawResponse, rawRead resp = resp)
    ∧ (∀ resp : RawResponse, rawDelete resp = resp) :=
  ⟨fun _ _ _ _ => rfl, fun _ => rfl, fun _ => rfl⟩

/-- C9 (amended): for every PEM input whose first certificate embeds a
non-RSA public key, `ParseKey` fails, before the expiry check, with the
message `expected RSA public key but found ` followed by the Go
percent-v value rendering of the found key. -/
theorem c9_non_rsa_rejected (tn v : String) (na : Int)
    (rest : List GoCert) (now : Int) :
    ParseKey (.certs ({ publicKey := .nonRSA tn v, notAfter := na } :: rest)) now
      = .error ("expected RSA public key but found " ++ v) := rfl

/-- C9 counterexample: on a concrete certificate embedding an ed25519
key, the rejection message carries the percent-v rendering of the key
value (its byte slice) and contains neither the Go type name of the key
nor the substring ed25519 — the message does not report the actual key
type. -/
theorem c9_key_type_counterexample :
    ParseKey (.certs [nonRSACert]) 0 = .error c9msg
    ∧ containsSeq ed25519TypeName.toList c9msg.toList = false
    ∧ containsSeq "ed25519".toList c9msg.toList = false := by
  refine ⟨rfl, by decide, by decide⟩

set_option maxRecDepth 100000 in
/-- C1 (code bug): only the multi-value resource validates the scope.
The raws schema validator accepts exactly the integers from 0 to 2 and
rejects a scope-3 plan before `Create` (so before any label is built,
whatever the item sealer is); the raw schema validates nothing, and on
the same scope-3 plan the raw `Create` builds a label, encrypts, and
sets sealed state with no diagnostic — the unvalidated scope reaches
the cryptographic path. -/
theorem c1_scope_validation_gap :
    (∀ s : Int, rawsSchemaScopeValid s = decide (0 ≤ s ∧ s ≤ 2))
    ∧ (∀ s : Int, rawSchemaScopeValid s = true)
    ∧ (∀ (sealFn : String → String → Except String String) (now : Int)
          (nowStr : String),
        rawsApplyCreate sealFn demoScope3RawsPlan now nowStr
          = { diagnostics := [⟨"Invalid Attribute Value",
                "scope must be between 0 and 2"⟩], state := none })
    ∧ (rawApplyCreate demoScope3RawPlan 0 "t" demoStream).diagnostics = []
    ∧ (rawApplyCreate demoScope3RawPlan 0 "t" demoStream).state.isSome = true
    ∧ ((rawApplyCreate demoScope3RawPlan 0 "t" demoStream).state.getD
        demoScope3RawPlan).sealedText.isSome = true := by
  refine ⟨?_, fun _ => rfl, fun _ _ _ => rfl, ?_, ?_, ?_⟩
  · intro s
    by_cases h0 : (0 : Int) ≤ s <;> by_cases h2 : s ≤ 2 <;>
      simp [rawsSchemaScopeValid, h0, h2]
  · rfl
  · rfl
  · rfl

/-- C5 (code bug): Go passes `resp.Diagnostics` to `encryptMapWrapper`
by value, so the errors the wrapper adds stay in its local copy: on a
pubkey parse failure the local diagnostics hold the message but the
Create response carries no diagnostics at all, and on a per-item
encryption failure likewise; moreover, when extracting the values map
fails, the wrapper returns the stale nil error, so Create proceeds to
`State.Set` and persists the unsealed plan. -/
theorem c5_error_not_surfaced :
    (∀ sealFn : String → String → Except String String,
      (encryptMapWrapper sealFn badPemRawsPlan 0 "t" []).2.2
        = [⟨"Error parsing pubkey", "Unexpected error: no certificate block"⟩]
      ∧ rawsCreate sealFn badPemRawsPlan 0 "t"
          = { diagnostics := [], state := none }
      ∧ rawsUpdate sealFn badPemRawsPlan 0 "t"
          = { diagnostics := [], state := none }
      ∧ rawsCreate sealFn badValuesRawsPlan 0 "t"
          = { diagnostics := [], state := some badValuesRawsPlan })
    ∧ (encryptMapWrapper failBSealFn okRawsPlan 0 "t" []).2.2
        = [⟨"Error encrypting secret item",
            "Unexpected error for key " ++ quoteChar ++ "b" ++ quoteChar
              ++ ": simulated-encrypt-failure"⟩]
    ∧ rawsCreate failBSealFn okRawsPlan 0 "t"
        = { diagnostics := [], state := none } := by
  refine ⟨fun sealFn => ⟨rfl, rfl, rfl, rfl⟩, ?_, rfl⟩
  · rfl

/-- C3: every successful seal output is framed as the fixed-width
big-endian length prefix of the wrapped-key field, then the wrapped
session key, then the nonce, then the AEAD ciphertext-plus-tag, and
nothing else; the prefix read back big-endian gives the wrapped-key
length; and the returned text is the padded standard-alphabet base64
encoding of that blob (every character is in the standard alphabet or
the padding character, and the length is a multiple of 4). -/
theorem c3_hybrid_seal_framing
    (stream : Nat → Nat) (k : RSAPub) (pt lbl out : List Nat)
    (hsize : k.size < 65536)
    (h : HybridEncrypt stream k pt lbl = .ok out) :
    ∃ wrapped,
      oaepWrap stream (sessionKeyBytes + gcmNonceBytes) k
          (streamTake stream 0 sessionKeyBytes) lbl = .ok wrapped
      ∧ out = beBytes2 wrapped.length ++ wrapped
          ++ streamTake stream sessionKeyBytes gcmNonceBytes
          ++ aeadSeal (streamTake stream 0 sessionKeyBytes)
              (streamTake stream sessionKeyBytes gcmNonceBytes) pt lbl
      ∧ readBE2 out = wrapped.length
      ∧ (base64EncodeL out).length % 4 = 0
      ∧ (∀ c ∈ base64EncodeL out, c ∈ b64Chars ∨ c = '=')
      ∧ base64Encode out = String.mk (base64EncodeL out) := by
  obtain ⟨w, hw, hout⟩ := hybridEncrypt_ok h
  have hlen : w.length = k.size := oaepWrap_ok_length hw
  have hwlt : w.length < 65536 := by rw [hlen]; exact hsize
  have hread : readBE2 out = w.length := by
    rw [hout]
    simp only [List.append_assoc]
    exact readBE2_beBytes2 _ _ hwlt
  exact ⟨w, hw, hout, hread, base64EncodeL_length_mod4 out,
    base64EncodeL_mem out, rfl⟩

set_option maxRecDepth 400000 in
/-- Witness for the framing theorem on the spec section 8 scenario. -/
theorem c3_hybrid_seal_framing_witness :
    ∃ wrapped,
      oaepWrap demoStream (sessionKeyBytes + gcmNonceBytes) ⟨98⟩
          (streamTake demoStream 0 sessionKeyBytes)
          (EncryptionLabel "default" "example" 0) = .ok wrapped
      ∧ demoSealedOut = beBytes2 wrapped.length ++ wrapped
          ++ streamTake demoStream sessionKeyBytes gcmNonceBytes
          ++ aeadSeal (streamTake demoStream 0 sessionKeyBytes)
              (streamTake demoStream sessionKeyBytes gcmNonceBytes)
              (strBytes "very_secret_secret")
              (EncryptionLabel "default" "example" 0)
      ∧ readBE2 demoSealedOut = wrapped.length
      ∧ (base64EncodeL demoSealedOut).length % 4 = 0
      ∧ (∀ c ∈ base64EncodeL demoSealedOut, c ∈ b64Chars ∨ c = '=')
      ∧ base64Encode demoSealedOut = String.mk (base64EncodeL demoSealedOut) :=
  c3_hybrid_seal_framing demoStream ⟨98⟩ (strBytes "very_secret_secret")
    (EncryptionLabel "default" "example" 0) demoSealedOut (by decide) (by rfl)

/-- C4: in a multi-value request whose items are sealed in iteration
order, the first failing item aborts the loop: the wrapper returns the
plan unchanged (no partial sealed mapping), the underlying cause as the
error, and a local diagnostic naming the failing key and the cause; the
Create and Update paths then return without reaching `State.Set`, so no
mapping with earlier ciphertexts is returned or stored. -/
theorem c4_sealmany_abort_no_partial
    (sealFn : String → String → Except String String)
    (pre post : List (String × String)) (k v cause : String)
    (plan : RawsPlan) (now : Int) (nowStr : String) (diags0 : List Diag)
    (key : RSAPub)
    (hkey : ParseKey plan.pubkey now = .ok key)
    (hvals : plan.values = .ok (pre ++ (k, v) :: post))
    (hpre : ∀ p ∈ pre, ∃ ct, sealFn p.1 p.2 = .ok ct)
    (hfail : sealFn k v = .error cause) :
    encryptMapWrapper sealFn plan now nowStr diags0
      = (plan, some cause,
          diags0 ++ [⟨"Error encrypting secret item",
            "Unexpected error for key " ++ quoteChar ++ k ++ quoteChar
              ++ ": " ++ cause⟩])
    ∧ (rawsCreate sealFn plan now nowStr).state = none
    ∧ (rawsCreate sealFn plan now nowStr).diagnostics = []
    ∧ (rawsUpdate sealFn plan now nowStr).state = none := by
  have hloop := sealLoop_first_failure sealFn pre post k v cause hpre hfail
  have hw : ∀ ds : List Diag, encryptMapWrapper sealFn plan now nowStr ds
      = (plan, some cause,
          ds ++ [⟨"Error encrypting secret item",
            "Unexpected error for key " ++ quoteChar ++ k ++ quoteChar
              ++ ": " ++ cause⟩]) := by
    intro ds
    simp [encryptMapWrapper, hkey, hvals, hloop]
  refine ⟨hw diags0, ?_, ?_, ?_⟩
  · simp [rawsCreate, hw []]
  · simp [rawsCreate, hw []]
  · simp [rawsUpdate, hw []]

/-- Witness for the abort theorem: three items where item `b` fails. -/
theorem c4_sealmany_abort_no_partial_witness :
    encryptMapWrapper failBSealFn okRawsPlan 0 "t" []
      = (okRawsPlan, some "simulated-encrypt-failure",
          [⟨"Error encrypting secret item",
            "Unexpected error for key " ++ quoteChar ++ "b" ++ quoteChar
              ++ ": simulated-encrypt-failure"⟩])
    ∧ (rawsCreate failBSealFn okRawsPlan 0 "t").state = none
    ∧ (rawsCreate failBSealFn okRawsPlan 0 "t").diagnostics = []
    ∧ (rawsUpdate failBSealFn okRawsPlan 0 "t").state = none := by
  have h := c4_sealmany_abort_no_partial failBSealFn [("a", "s1")] [("c", "s3")]
    "b" "s2" "simulated-encrypt-failure" okRawsPlan 0 "t" [] ⟨98⟩ rfl rfl
    (by intro p hp
        simp only [List.mem_singleton] at hp
        subst hp
        exact ⟨"ct", rfl⟩)
    rfl
  simpa using h

/-- C10: whenever the hybrid encryption returns without error its blob
is non-empty (the frame starts with the 2-byte length field), hence the
base64 text is non-empty; consequently the `Error Sealing not
successful` diagnostic guarding `len(sealed) == 0` is unreachable: no
Create or Update response of the raw resource ever carries it. -/
theorem c10_sealed_empty_branch_unreachable :
    (∀ (stream : Nat → Nat) (k : RSAPub) (pt lbl out : List Nat),
        HybridEncrypt stream k pt lbl = .ok out →
          out ≠ [] ∧ base64Encode out ≠ "")
    ∧ (∀ (plan : RawPlan) (now : Int) (nowStr : String) (stream : Nat → Nat),
        (⟨"Error Sealing not successful", ""⟩ : Diag)
            ∉ (rawCreate plan now nowStr stream).diagnostics
        ∧ (⟨"Error Sealing not successful", ""⟩ : Diag)
            ∉ (rawUpdate plan now nowStr stream).diagnostics) := by
  constructor
  · intro stream k pt lbl out h
    obtain ⟨w, hw, hout⟩ := hybridEncrypt_ok h
    have hne : out ≠ [] := by
      rw [hout]; simp [beBytes2]
    refine ⟨hne, ?_⟩
    intro hcontra
    have hdata := congrArg String.data hcontra
    simp only [base64Encode] at hdata
    exact base64EncodeL_ne_nil hne hdata
  · intro plan now nowStr stream
    cases hpk : ParseKey plan.pubkey now with
    | error e => constructor <;> simp [rawCreate, rawUpdate, hpk]
    | ok key =>
      cases henc : HybridEncrypt stream key (strBytes plan.secret)
          (EncryptionLabel plan.nspace plan.name plan.scope) with
      | error e => constructor <;> simp [rawCreate, rawUpdate, hpk, henc]
      | ok out =>
        obtain ⟨w, hw, hout⟩ := hybridEncrypt_ok henc
        have hne : out ≠ [] := by
          rw [hout]; simp [beBytes2]
        have hlenL : (base64Encode out).length = (base64EncodeL out).length := rfl
        have hlen : ¬(base64Encode out).length = 0 := by
          rw [hlenL]
          intro h0
          exact base64EncodeL_ne_nil hne (List.length_eq_zero.mp h0)
        constructor <;> simp [rawCreate, rawUpdate, hpk, henc, hlen]

set_option maxRecDepth 400000 in
/-- Witness for the non-empty-blob theorem on the scenario inputs. -/
theorem c10_sealed_empty_branch_unreachable_witness :
    demoSealedOut ≠ [] ∧ base64Encode demoSealedOut ≠ "" :=
  c10_sealed_empty_branch_unreachable.1 demoStream ⟨98⟩
    (strBytes "very_secret_secret") (EncryptionLabel "default" "example" 0)
    demoSealedOut (by rfl)

end Kubeseal
